import Mathlib

/-!
Verification of the Helm-managed component registry of the
opendatahub-operator feature branch (`internal/controller/helmregistry`
and the langfuse component files).

The development shallowly embeds the Go code:

* configuration trees (`chartutil.Values`) become `Val` /
  association lists of `String × Val`;
* the three-tier value merge (`MergeValues`, delegating to helm's
  `chartutil.CoalesceTables`, whose source is not part of this
  repository) is modelled from the specification of the merge engine;
* registry, component, chart loading, rendering and the watch
  lifecycle are translated from `langfuse_init.go`, `loader.go`,
  `watches.go` and the component/registry type declarations, with the
  external collaborators (chart loader, template engine, YAML parser)
  passed in as explicit parameters.
-/

set_option autoImplicit false

namespace helmregistry

/-- A YAML/Helm configuration value: scalars, the explicit absent
marker (`null`), ordered sequences, and string-keyed mappings
(`map[string]interface\x7b\x7d` in the Go source, modelled as an
association list whose key order is irrelevant for lookups). -/
inductive Val where
  | vnull : Val
  | vbool : Bool → Val
  | vint : Int → Val
  | vstr : String → Val
  | vlist : List Val → Val
  | vmap : List (String × Val) → Val

/-- A configuration tree: the payload of `chartutil.Values`. -/
abbrev VMap := List (String × Val)

/-- First binding of a key in a tree (Go map read). -/
def lookupVal : VMap → String → Option Val
  | [], _ => none
  | (k, v) :: rest, key => if k = key then some v else lookupVal rest key

/-- `true` for the scalar values of the spec's data model
(string/number/boolean); the absent marker and the structured values
are not scalars. -/
def Val.isScalar : Val → Bool
  | Val.vbool _ => true
  | Val.vint _ => true
  | Val.vstr _ => true
  | _ => false

mutual

/-- Modelled from the spec: the value a higher-precedence binding
`k ↦ v` contributes to the merge against the lower-precedence tree
`src`.  Per §4.2 of the spec: the higher-precedence value wins unless
both values are mappings, which are merged recursively; a
higher-precedence absent marker deletes the key (`none`); scalars and
sequences are replaced wholesale. -/
def coalesceEntry (k : String) (v : Val) (src : VMap) : Option Val :=
  match v, lookupVal src k with
  | Val.vnull, _ => none
  | Val.vmap m, some (Val.vmap m2) =>
      some (Val.vmap (coalesceEntries m m2 ++
        m2.filter (fun p => (lookupVal m p.fst).isNone)))
  | v, _ => some v
termination_by sizeOf v
decreasing_by
  simp_wf

/-- Modelled from the spec: helm's `chartutil.CoalesceTables`, the
merge step used by `MergeValues`, whose source is not part of this
repository.  `dst` is the higher-precedence tree; this helper
produces the entries contributed by `dst`. -/
def coalesceEntries : VMap → VMap → VMap
  | [], _ => []
  | (k, v) :: rest, src =>
    match coalesceEntry k v src with
    | none => coalesceEntries rest src
    | some w => (k, w) :: coalesceEntries rest src
termination_by dst _ => sizeOf dst
decreasing_by
  all_goals simp_wf <;> omega

end

/-- Modelled from the spec: the full merge of a higher-precedence tree
`dst` onto a lower-precedence tree `src` — `dst`'s entries after the
precedence rules, followed by the `src` entries whose key `dst` does
not bind. -/
def CoalesceTables (dst src : VMap) : VMap :=
  coalesceEntries dst src ++ src.filter (fun p => (lookupVal dst p.fst).isNone)

/-- The error sentinels of `errors.New` in the registry package
(the `var` block of the component/registry declarations). -/
inductive Sentinel where
  | chartNotFound
  | chartLoadFailed
  | duplicateComponent
  | invalidConfig
  | componentNotFound
  | valuesGeneration
  | templateRendering
  | invalidManifest
  | watchRegistration
  | invalidGVK
  | discoveryFailed
  deriving Repr, DecidableEq

/-- The message each sentinel carries (`errors.New` argument). -/
def sentinelText : Sentinel → String
  | Sentinel.chartNotFound => "chart not found"
  | Sentinel.chartLoadFailed => "chart load failed"
  | Sentinel.duplicateComponent => "duplicate component"
  | Sentinel.invalidConfig => "invalid component config"
  | Sentinel.componentNotFound => "component not found"
  | Sentinel.valuesGeneration => "values generation failed"
  | Sentinel.templateRendering => "template rendering failed"
  | Sentinel.invalidManifest => "invalid manifest"
  | Sentinel.watchRegistration => "watch registration failed"
  | Sentinel.invalidGVK => "invalid GVK"
  | Sentinel.discoveryFailed => "discovery failed"

/-- A Go error value: an optional sentinel reachable through
`errors.Is` (the target of a `%w` wrap) and the rendered message. -/
structure GoError where
  sentinel : Option Sentinel
  msg : String
  deriving Repr, DecidableEq

/-- `fmt.Errorf` wrapping a sentinel around an inner error or message,
as in the registry code. -/
def wrapErr (s : Sentinel) (inner : String) : GoError :=
  { sentinel := some s, msg := sentinelText s ++ ": " ++ inner }

/-- `schema.GroupVersionKind`. -/
structure GVK where
  group : String
  version : String
  kind : String
  deriving Repr, DecidableEq

/-- One entry of `CustomResourceDefinitionSpec.Versions`. -/
structure CRDVersion where
  name : String
  served : Bool
  deriving Repr, DecidableEq

/-- The fields of a `CustomResourceDefinition` the watch lifecycle
reads: `Spec.Group`, `Spec.Names.Kind` and `Spec.Versions`. -/
structure CRD where
  group : String
  kind : String
  versions : List CRDVersion
  deriving Repr, DecidableEq

/-- One auxiliary chart file (`chart.Files` entry): its name and the
verdict of the external YAML parser on its data (`yaml.Unmarshal`
into `chartutil.Values` is an external call; its outcome is data of
the embedding). -/
structure ChartFile where
  name : String
  parsed : Except String VMap

/-- The loaded Helm chart: default values (`chart.Values`), the
template entries (consumed only by the external engine) and the
auxiliary files. -/
structure Chart where
  values : VMap
  templates : List (String × String)
  files : List ChartFile

/-- `HelmManagedComponent`, over an abstract component-spec type `σ`.
`rhoaiValues = none` is the Go nil map, distinct from an empty tree.
The pending-watch set is the `map[schema.GroupVersionKind]bool`. -/
structure HelmManagedComponent (σ : Type) where
  chartName : String
  chart : Option Chart
  valuesGenerator : σ → Except String VMap
  watches : List GVK
  rhoaiValues : Option VMap
  pendingWatches : List (GVK × Bool)

/-- `ComponentConfig`: the registration request.  The generator is
optional because Go permits a nil function value. -/
structure ComponentConfig (σ : Type) where
  chartName : String
  valuesGenerator : Option (σ → Except String VMap)
  watches : List GVK

/-- `HelmManagedComponentRegistry`: the catalog, keyed by component
name. -/
structure HelmManagedComponentRegistry (σ : Type) where
  components : List (String × HelmManagedComponent σ)

/-- `NewHelmManagedComponentRegistry`. -/
def NewHelmManagedComponentRegistry (σ : Type) : HelmManagedComponentRegistry σ :=
  { components := [] }

/-- Registry map read (`r.components[name]`). -/
def lookupComp {σ : Type} :
    List (String × HelmManagedComponent σ) → String → Option (HelmManagedComponent σ)
  | [], _ => none
  | (k, c) :: rest, key => if k = key then some c else lookupComp rest key

/-- `GetComponent`. -/
def GetComponent {σ : Type} (r : HelmManagedComponentRegistry σ) (name : String) :
    Option (HelmManagedComponent σ) :=
  lookupComp r.components name

/-- `validateComponentConfig`: empty `ChartName` or nil
`ValuesGenerator` is rejected, in that order. -/
def validateComponentConfig {σ : Type} (config : ComponentConfig σ) : Option String :=
  if config.chartName = "" then
    some "ChartName cannot be empty"
  else if config.valuesGenerator.isNone then
    some "ValuesGenerator cannot be nil"
  else
    none

/-- `extractRHOAIValues`: the first `values.rhoai.yaml` entry of the
chart files is parsed; on a parse error the RHOAI tree is left at its
zero value (nil) and the error is returned; a missing file yields the
empty tree.  Returns (new RHOAI tree, error). -/
def extractRHOAIValues (ch : Chart) : Option VMap × Option String :=
  match ch.files.find? (fun f => f.name = "values.rhoai.yaml") with
  | some f =>
    match f.parsed with
    | Except.error e => (none, some ("invalid values.rhoai.yaml: " ++ e))
    | Except.ok v => (some v, none)
  | none => (some [], none)

/-- `LoadChart`: resolve the bundle through the external loader (the
`loader.Load` calls on the packaged and unpacked path), then extract
the RHOAI overrides, discarding any extraction error.  Returns the
loaded chart together with the resulting RHOAI tree. -/
def LoadChart (loader : String → Except String Chart) (chartPath : String) :
    Except String (Chart × Option VMap) :=
  match loader chartPath with
  | Except.error e =>
    Except.error ("failed to load chart from charts/" ++ chartPath ++ ": " ++ e)
  | Except.ok ch => Except.ok (ch, (extractRHOAIValues ch).fst)

/-- `Register`: validate the config, reject duplicate names, load the
bundle, and insert the new entry into the catalog.  The external
bundle loader is a parameter.  Returns the updated registry and the
error, mirroring the Go control flow and error wrapping. -/
def Register {σ : Type} (r : HelmManagedComponentRegistry σ)
    (loader : String → Except String Chart)
    (name : String) (config : ComponentConfig σ) :
    HelmManagedComponentRegistry σ × Option GoError :=
  match validateComponentConfig config with
  | some e => (r, some (wrapErr Sentinel.invalidConfig e))
  | none =>
    if (lookupComp r.components name).isSome then
      (r, some (wrapErr Sentinel.duplicateComponent
        ("component " ++ name ++ " already registered")))
    else
      match config.valuesGenerator with
      | none => (r, some (wrapErr Sentinel.invalidConfig "ValuesGenerator cannot be nil"))
      | some gen =>
        match LoadChart loader config.chartName with
        | Except.error e => (r, some (wrapErr Sentinel.chartLoadFailed e))
        | Except.ok (ch, rhoai) =>
          ({ components := (name,
              { chartName := config.chartName
                chart := some ch
                valuesGenerator := gen
                watches := config.watches
                rhoaiValues := rhoai
                pendingWatches := [] }) :: r.components }, none)

/-- `MergeValues`: fold the RHOAI overrides onto the chart defaults,
then the component values onto the result, skipping nil or empty
trees exactly as the Go guards do. -/
def MergeValues {σ : Type} (c : HelmManagedComponent σ) (componentValues : VMap) : VMap :=
  match c.chart with
  | none => componentValues
  | some ch =>
    let result := ch.values
    let result :=
      match c.rhoaiValues with
      | some rv => if rv.length > 0 then CoalesceTables rv result else result
      | none => result
    if componentValues.length > 0 then CoalesceTables componentValues result else result

/-- `shouldExcludeFile`: drops post-install notes, test fixtures and
lifecycle hooks from the engine output (the ArgoCD-style filter). -/
def shouldExcludeFile (filename : String) : Bool :=
  decide ("NOTES.txt".toList <:+: filename.toList) ||
  decide ("/tests/".toList <:+: filename.toList) ||
  decide ("/hooks/".toList <:+: filename.toList)

/-- The filtering and validation loop of `RenderTemplates`: excluded
entries are skipped; each surviving entry must pass the external YAML
parser (`yamlOk`), a failure aborting with the `invalid YAML in`
error. -/
def filterManifests (yamlOk : String → Bool) :
    List (String × String) → Except String (List (String × String))
  | [] => Except.ok []
  | (filename, content) :: rest =>
    if shouldExcludeFile filename then
      filterManifests yamlOk rest
    else if yamlOk content then
      match filterManifests yamlOk rest with
      | Except.error e => Except.error e
      | Except.ok m => Except.ok ((filename, content) :: m)
    else
      Except.error ("invalid YAML in " ++ filename)

/-- `RenderTemplates`: invoke the external template engine on the
loaded chart and the merged values, then filter and validate the
output.  The engine and the YAML validity verdict are parameters; all
errors are plain (`fmt.Errorf` without a sentinel). -/
def RenderTemplates {σ : Type} (c : HelmManagedComponent σ)
    (engineRender : Chart → VMap → Except String (List (String × String)))
    (yamlOk : String → Bool) (values : VMap) :
    Except GoError (List (String × String)) :=
  match c.chart with
  | none => Except.error { sentinel := none, msg := "chart not loaded" }
  | some ch =>
    match engineRender ch values with
    | Except.error e =>
      Except.error { sentinel := none, msg := "template rendering failed: " ++ e }
    | Except.ok manifests =>
      match filterManifests yamlOk manifests with
      | Except.error e => Except.error { sentinel := none, msg := e }
      | Except.ok m => Except.ok m

/-- `Registry.Render`: resolve the component, generate the
component-specific values, merge, and render; each failure is wrapped
in its sentinel (`ComponentNotFound`, `ValuesGeneration`,
`TemplateRendering`). -/
def Render {σ : Type} (r : HelmManagedComponentRegistry σ)
    (engineRender : Chart → VMap → Except String (List (String × String)))
    (yamlOk : String → Bool)
    (name : String) (spec : σ) :
    Except GoError (List (String × String)) :=
  match GetComponent r name with
  | none =>
    Except.error (wrapErr Sentinel.componentNotFound
      ("component " ++ name ++ " not registered"))
  | some c =>
    match c.valuesGenerator spec with
    | Except.error e => Except.error (wrapErr Sentinel.valuesGeneration e)
    | Except.ok componentValues =>
      let finalValues := MergeValues c componentValues
      match RenderTemplates c engineRender yamlOk finalValues with
      | Except.error e => Except.error (wrapErr Sentinel.templateRendering e.msg)
      | Except.ok manifests => Except.ok manifests

/-- `getServedVersion`: the first served version's name, else the
first version's name, else the empty string. -/
def getServedVersion (crd : CRD) : String :=
  match crd.versions.find? (fun v => v.served) with
  | some v => v.name
  | none =>
    match crd.versions with
    | [] => ""
    | v :: _ => v.name

/-- The (group, served-version, kind) tuple the watch lifecycle builds
from a candidate resource-type definition. -/
def crdGVK (crd : CRD) : GVK :=
  { group := crd.group, version := getServedVersion crd, kind := crd.kind }

/-- Pending-watch map read. -/
def lookupPW : List (GVK × Bool) → GVK → Option Bool
  | [], _ => none
  | (g, b) :: rest, gvk => if g = gvk then some b else lookupPW rest gvk

/-- Pending-watch map delete (`delete(c.pendingWatches, gvk)`). -/
def erasePW : List (GVK × Bool) → GVK → List (GVK × Bool)
  | [], _ => []
  | (g, b) :: rest, gvk =>
    if g = gvk then erasePW rest gvk else (g, b) :: erasePW rest gvk

/-- `HasPendingWatchForCRD`: the candidate's (group, served-version,
kind) tuple is looked up in the pending map; the Go
`exists && pending` read defaults to false. -/
def HasPendingWatchForCRD {σ : Type} (c : HelmManagedComponent σ) (crd : CRD) : Bool :=
  match lookupPW c.pendingWatches (crdGVK crd) with
  | some pending => pending
  | none => false

/-- `MarkWatchRegistered`: promotion deletes the descriptor from the
pending map. -/
def MarkWatchRegistered {σ : Type} (c : HelmManagedComponent σ) (gvk : GVK) :
    HelmManagedComponent σ :=
  { c with pendingWatches := erasePW c.pendingWatches gvk }

/-- `RegisterPendingWatch`: a non-matching candidate is a successful
no-op; a matching one promotes the descriptor.  The controller and
event-handler arguments of the Go signature are only passed through
and are omitted.  Returns the updated component and the error (always
nil). -/
def RegisterPendingWatch {σ : Type} (c : HelmManagedComponent σ) (crd : CRD) :
    HelmManagedComponent σ × Option GoError :=
  if HasPendingWatchForCRD c crd then
    (MarkWatchRegistered c (crdGVK crd), none)
  else
    (c, none)

/-- The optional RHOAI tree seen as a tree: the Go nil map is the
empty tree for merge purposes. -/
def rhoaiTree : Option VMap → VMap
  | none => []
  | some v => v

/-- A component holding chart defaults `D` and platform overrides
`O`, used to state the merge-engine claims over `MergeValues`. -/
def mkMergeComp (D O : VMap) : HelmManagedComponent Unit :=
  { chartName := "chart"
    chart := some { values := D, templates := [], files := [] }
    valuesGenerator := fun _ => Except.ok []
    watches := []
    rhoaiValues := some O
    pendingWatches := [] }

/-! ### Concrete scenario data for witnesses and counterexamples -/

/-- A minimal loaded chart bundle with no override file. -/
def okChart : Chart :=
  { values := [], templates := [], files := [] }

/-- A bundle loader that always resolves to `okChart`. -/
def okLoader : String → Except String Chart :=
  fun _ => Except.ok okChart

/-- A trivial values generator. -/
def emptyGen : Unit → Except String VMap :=
  fun _ => Except.ok []

/-- A well-formed registration config for the langfuse chart. -/
def goodCfg : ComponentConfig Unit :=
  { chartName := "langfuse", valuesGenerator := some emptyGen, watches := [] }

/-- A config with an empty chart name (fails validation). -/
def emptyNameCfg : ComponentConfig Unit :=
  { chartName := "", valuesGenerator := some emptyGen, watches := [] }

/-- The registry after one successful registration of `langfuse`. -/
def reg1 : HelmManagedComponentRegistry Unit :=
  (Register (NewHelmManagedComponentRegistry Unit) okLoader "langfuse" goodCfg).fst

/-- `reg1` extended by a second component under another name. -/
def reg2 : HelmManagedComponentRegistry Unit :=
  (Register reg1 okLoader "other" goodCfg).fst

/-- An engine verdict: rendering succeeds, producing one deployable
manifest entry. -/
def oneManifestEngine : Chart → VMap → Except String (List (String × String)) :=
  fun _ _ => Except.ok [("templates/deployment.yaml", "a: [")]

/-- A YAML parser verdict under which no text is well-formed. -/
def neverYamlOk : String → Bool :=
  fun _ => false

/-- The descriptor of the deferred-watch scenario. -/
def gvk0 : GVK :=
  { group := "custom.io", version := "v1alpha1", kind := "CustomResource" }

/-- The matching resource-type definition for `gvk0`. -/
def crd0 : CRD :=
  { group := "custom.io", kind := "CustomResource",
    versions := [{ name := "v1alpha1", served := true }] }

/-- An unrelated resource-type definition. -/
def crdOther : CRD :=
  { group := "other.io", kind := "OtherResource",
    versions := [{ name := "v1", served := true }] }

/-- A component with the single pending watch descriptor `gvk0`. -/
def comp0 : HelmManagedComponent Unit :=
  { chartName := "test-chart"
    chart := none
    valuesGenerator := emptyGen
    watches := [gvk0]
    rhoaiValues := none
    pendingWatches := [(gvk0, true)] }

/-- A chart whose `values.rhoai.yaml` auxiliary file does not parse. -/
def parseErrorChart : Chart :=
  { values := [("replicas", Val.vint 1)]
    templates := []
    files := [{ name := "values.rhoai.yaml", parsed := Except.error "yaml parse error" }] }

/-! ### Lemmas about lookups in merged trees -/

theorem lookup_append (a b : VMap) (k : String) :
    lookupVal (a ++ b) k =
      match lookupVal a k with
      | some v => some v
      | none => lookupVal b k := by
  induction a with
  | nil => simp [lookupVal]
  | cons hd rest ih =>
    obtain ⟨k', v⟩ := hd
    by_cases h : k' = k <;> simp [lookupVal, h, ih]

theorem lookup_filter (dst src : VMap) (k : String) :
    lookupVal (src.filter (fun p => (lookupVal dst p.fst).isNone)) k =
      if (lookupVal dst k).isNone then lookupVal src k else none := by
  induction src with
  | nil => simp [lookupVal]
  | cons hd rest ih =>
    obtain ⟨k', v⟩ := hd
    by_cases h : k' = k
    · subst h
      cases hd' : (lookupVal dst k').isNone <;>
        simp [List.filter_cons, hd', lookupVal, ih]
    · cases hp : (lookupVal dst k').isNone <;>
        simp [List.filter_cons, hp, lookupVal, h, ih]

theorem lookup_mem_keys (l : VMap) (k : String) (v : Val)
    (h : lookupVal l k = some v) : k ∈ l.map Prod.fst := by
  induction l with
  | nil => simp [lookupVal] at h
  | cons hd rest ih =>
    obtain ⟨k', v'⟩ := hd
    by_cases hk : k' = k
    · simp [hk]
    · simp [lookupVal, hk] at h
      simp [ih h]

theorem coalesceEntries_keys_sub (dst src : VMap) :
    ∀ p ∈ coalesceEntries dst src, p.fst ∈ dst.map Prod.fst := by
  induction dst with
  | nil => intro p hp; simp [coalesceEntries] at hp
  | cons hd rest ih =>
    obtain ⟨k', v⟩ := hd
    intro p hp
    rw [coalesceEntries] at hp
    cases he : coalesceEntry k' v src with
    | none =>
      rw [he] at hp
      simp [ih p hp]
    | some w =>
      rw [he] at hp
      rcases List.mem_cons.mp hp with hp | hp
      · simp [hp]
      · simp [ih p hp]

theorem lookup_coalesceEntries_not_mem (dst src : VMap) (k : String)
    (h : k ∉ dst.map Prod.fst) :
    lookupVal (coalesceEntries dst src) k = none := by
  cases he : lookupVal (coalesceEntries dst src) k with
  | none => rfl
  | some v =>
    exfalso
    apply h
    rcases List.mem_map.mp (lookup_mem_keys _ _ _ he) with ⟨p, hp, hfst⟩
    exact hfst ▸ coalesceEntries_keys_sub dst src p hp

theorem lookup_coalesceEntries (dst src : VMap) (k : String)
    (h : (dst.map Prod.fst).Nodup) :
    lookupVal (coalesceEntries dst src) k =
      match lookupVal dst k with
      | none => none
      | some v => coalesceEntry k v src := by
  induction dst with
  | nil => simp [coalesceEntries, lookupVal]
  | cons hd rest ih =>
    obtain ⟨k', v⟩ := hd
    rw [List.map_cons, List.nodup_cons] at h
    rw [coalesceEntries]
    by_cases hk : k' = k
    · subst hk
      cases he : coalesceEntry k' v src with
      | none =>
        rw [lookup_coalesceEntries_not_mem rest src k' h.1]
        simp [lookupVal, he]
      | some w =>
        simp [lookupVal, he]
    · cases he : coalesceEntry k' v src with
      | none =>
        rw [ih h.2]
        simp [lookupVal, hk]
      | some w =>
        rw [lookupVal, if_neg hk, ih h.2]
        simp [lookupVal, hk]

/-- The behaviour of the merge on an arbitrary key: the
higher-precedence tree decides via `coalesceEntry`; a key it does not
bind falls through to the lower-precedence tree. -/
theorem lookup_CoalesceTables (dst src : VMap) (k : String)
    (h : (dst.map Prod.fst).Nodup) :
    lookupVal (CoalesceTables dst src) k =
      match lookupVal dst k with
      | none => lookupVal src k
      | some v => coalesceEntry k v src := by
  rw [CoalesceTables, lookup_append, lookup_coalesceEntries dst src k h, lookup_filter]
  cases hd : lookupVal dst k with
  | none => simp
  | some v =>
    cases he : coalesceEntry k v src with
    | none => simp [hd, he]
    | some w => simp [hd, he]

theorem coalesceEntry_scalar (k : String) (v : Val) (src : VMap)
    (h : v.isScalar = true) : coalesceEntry k v src = some v := by
  cases v <;> simp [Val.isScalar] at h <;> simp [coalesceEntry]

theorem coalesceEntry_null (k : String) (src : VMap) :
    coalesceEntry k Val.vnull src = none := by
  simp [coalesceEntry]

theorem coalesceEntry_vmap (k : String) (m m2 : VMap) (src : VMap)
    (h : lookupVal src k = some (Val.vmap m2)) :
    coalesceEntry k (Val.vmap m) src = some (Val.vmap (CoalesceTables m m2)) := by
  simp [coalesceEntry, h, CoalesceTables]

theorem CoalesceTables_nil_left (src : VMap) : CoalesceTables [] src = src := by
  rw [CoalesceTables, coalesceEntries, List.nil_append, List.filter_eq_self.mpr]
  intro a _
  simp [lookupVal]

/-- `MergeValues` is the double fold of §4.2: component values onto
(RHOAI overrides onto chart defaults); the emptiness guards of the Go
code are no-ops of the merge. -/
theorem mergeValues_eq {σ : Type} (c : HelmManagedComponent σ) (ch : Chart)
    (cv : VMap) (hch : c.chart = some ch) :
    MergeValues c cv =
      CoalesceTables cv (CoalesceTables (rhoaiTree c.rhoaiValues) ch.values) := by
  rw [MergeValues, hch]
  rcases hr : c.rhoaiValues with _ | rv
  · rcases cv with _ | ⟨p, cv⟩ <;>
      simp [rhoaiTree, CoalesceTables_nil_left]
  · rcases rv with _ | ⟨q, rv⟩ <;> rcases cv with _ | ⟨p, cv⟩ <;>
      simp [rhoaiTree, CoalesceTables_nil_left]

theorem lookup_mergeValues (D O C : VMap) (k : String)
    (hC : (C.map Prod.fst).Nodup) (hO : (O.map Prod.fst).Nodup) :
    lookupVal (MergeValues (mkMergeComp D O) C) k =
      match lookupVal C k with
      | some v => coalesceEntry k v (CoalesceTables O D)
      | none =>
        match lookupVal O k with
        | some v => coalesceEntry k v D
        | none => lookupVal D k := by
  rw [mergeValues_eq (mkMergeComp D O) _ C rfl]
  show lookupVal (CoalesceTables C (CoalesceTables O D)) k = _
  rw [lookup_CoalesceTables _ _ _ hC]
  cases hc : lookupVal C k with
  | some v => rfl
  | none =>
    rw [lookup_CoalesceTables _ _ _ hO]
    cases lookupVal O k <;> rfl

/-! ### Claims about the merge engine -/

/-- Claim C3: for chart-default tree `D`, platform-override tree `O`
and component tree `C` that all bind the same key to a scalar value,
the merged tree binds it to `C`'s value; if `C` omits the key the
result binds `O`'s value; if both `C` and `O` omit it the result
binds `D`'s value. -/
theorem merge_scalar_precedence (D O C : VMap) (k : String)
    (hC : (C.map Prod.fst).Nodup) (hO : (O.map Prod.fst).Nodup) :
    (∀ d o c, lookupVal D k = some d → d.isScalar = true →
      lookupVal O k = some o → o.isScalar = true →
      lookupVal C k = some c → c.isScalar = true →
      lookupVal (MergeValues (mkMergeComp D O) C) k = some c)
    ∧ (∀ d o, lookupVal C k = none →
      lookupVal D k = some d → d.isScalar = true →
      lookupVal O k = some o → o.isScalar = true →
      lookupVal (MergeValues (mkMergeComp D O) C) k = some o)
    ∧ (∀ d, lookupVal C k = none → lookupVal O k = none →
      lookupVal D k = some d → d.isScalar = true →
      lookupVal (MergeValues (mkMergeComp D O) C) k = some d) := by
  refine ⟨?_, ?_, ?_⟩
  · intro d o c _ _ _ _ hc hcs
    rw [lookup_mergeValues D O C k hC hO, hc]
    exact coalesceEntry_scalar k c _ hcs
  · intro d o hc _ _ ho hos
    rw [lookup_mergeValues D O C k hC hO, hc, ho]
    exact coalesceEntry_scalar k o _ hos
  · intro d hc ho hd _
    rw [lookup_mergeValues D O C k hC hO, hc, ho]
    exact hd

/-- Witness for C3, the three-tier `replicas` scenario: component
value 3 wins over override 2 and default 1; with no component value
the override 2 wins; with neither the default 1 remains. -/
theorem merge_scalar_precedence_witness :
    lookupVal (MergeValues
      (mkMergeComp [("replicas", Val.vint 1)] [("replicas", Val.vint 2)])
      [("replicas", Val.vint 3)]) "replicas" = some (Val.vint 3)
    ∧ lookupVal (MergeValues
      (mkMergeComp [("replicas", Val.vint 1)] [("replicas", Val.vint 2)])
      []) "replicas" = some (Val.vint 2)
    ∧ lookupVal (MergeValues
      (mkMergeComp [("replicas", Val.vint 1)] [])
      []) "replicas" = some (Val.vint 1) := by
  refine ⟨?_, ?_, ?_⟩
  · exact (merge_scalar_precedence [("replicas", Val.vint 1)] [("replicas", Val.vint 2)]
      [("replicas", Val.vint 3)] "replicas" (by simp) (by simp)).1
      (Val.vint 1) (Val.vint 2) (Val.vint 3) rfl rfl rfl rfl rfl rfl
  · exact (merge_scalar_precedence [("replicas", Val.vint 1)] [("replicas", Val.vint 2)]
      [] "replicas" (by simp) (by simp)).2.1
      (Val.vint 1) (Val.vint 2) rfl rfl rfl rfl rfl
  · exact (merge_scalar_precedence [("replicas", Val.vint 1)] []
      [] "replicas" (by simp) (by simp)).2.2
      (Val.vint 1) rfl rfl rfl rfl

/-- Claim C4: a key whose higher-precedence value is the explicit
absent marker is deleted from the merged result rather than falling
back to the lower-precedence value — for the component tree over
everything below it, and for the override tree over the chart
defaults when the component tree omits the key. -/
theorem merge_null_deletes (D O C : VMap) (k : String)
    (hC : (C.map Prod.fst).Nodup) (hO : (O.map Prod.fst).Nodup) :
    (lookupVal C k = some Val.vnull →
      lookupVal (MergeValues (mkMergeComp D O) C) k = none)
    ∧ (lookupVal C k = none → lookupVal O k = some Val.vnull →
      lookupVal (MergeValues (mkMergeComp D O) C) k = none) := by
  constructor
  · intro hc
    rw [lookup_mergeValues D O C k hC hO, hc]
    exact coalesceEntry_null k _
  · intro hc ho
    rw [lookup_mergeValues D O C k hC hO, hc, ho]
    exact coalesceEntry_null k _

/-- Witness for C4, the spec's example: merging component values
binding `name` to the absent marker onto chart defaults binding
`name` to a string yields a tree with no `name` key at all. -/
theorem merge_null_deletes_witness :
    lookupVal (MergeValues
      (mkMergeComp [("name", Val.vstr "default")] [])
      [("name", Val.vnull)]) "name" = none
    ∧ MergeValues (mkMergeComp [("name", Val.vstr "default")] [])
      [("name", Val.vnull)] = [] := by
  constructor
  · exact (merge_null_deletes [("name", Val.vstr "default")] [] [("name", Val.vnull)]
      "name" (by simp) (by simp)).1 rfl
  · simp [MergeValues, mkMergeComp, CoalesceTables, coalesceEntries, coalesceEntry,
      lookupVal]

/-- Claim C5: when a key is bound to a mapping in both the
higher-precedence and the lower-precedence tree, the merge recurses
into the two mappings key-by-key, so sibling keys present only in the
lower-precedence mapping survive; in particular
`merge(D, empty, C)` with `D = a maps to (x 1, y 2)` and
`C = a maps to (x 9)` equals `a maps to (x 9, y 2)`. -/
theorem merge_deep_recursion :
    (∀ (dst src : VMap) (k : String) (m m2 : VMap),
      (dst.map Prod.fst).Nodup →
      lookupVal dst k = some (Val.vmap m) →
      lookupVal src k = some (Val.vmap m2) →
      lookupVal (CoalesceTables dst src) k = some (Val.vmap (CoalesceTables m m2)))
    ∧ (∀ (m m2 : VMap) (k2 : String),
      (m.map Prod.fst).Nodup →
      lookupVal m k2 = none →
      lookupVal (CoalesceTables m m2) k2 = lookupVal m2 k2)
    ∧ MergeValues (mkMergeComp [("a", Val.vmap [("x", Val.vint 1), ("y", Val.vint 2)])] [])
        [("a", Val.vmap [("x", Val.vint 9)])]
      = [("a", Val.vmap [("x", Val.vint 9), ("y", Val.vint 2)])] := by
  refine ⟨?_, ?_, ?_⟩
  · intro dst src k m m2 hn hdst hsrc
    rw [lookup_CoalesceTables dst src k hn, hdst]
    exact coalesceEntry_vmap k m m2 src hsrc
  · intro m m2 k2 hn hm
    rw [lookup_CoalesceTables m m2 k2 hn, hm]
  · simp [MergeValues, mkMergeComp, CoalesceTables, coalesceEntries, coalesceEntry,
      lookupVal]

theorem lookup_erasePW_self (l : List (GVK × Bool)) (g : GVK) :
    lookupPW (erasePW l g) g = none := by
  induction l with
  | nil => rfl
  | cons hd rest ih =>
    obtain ⟨g', b⟩ := hd
    by_cases h : g' = g <;> simp [erasePW, lookupPW, h, ih]

theorem lookup_erasePW_ne (l : List (GVK × Bool)) (g d : GVK) (h : d ≠ g) :
    lookupPW (erasePW l g) d = lookupPW l d := by
  induction l with
  | nil => rfl
  | cons hd rest ih =>
    obtain ⟨g', b⟩ := hd
    rw [erasePW]
    by_cases hg : g' = g
    · have hgd : ¬g' = d := by
        intro hgd
        exact h (by rw [← hgd]; exact hg)
      rw [if_pos hg, ih, lookupPW, if_neg hgd]
    · rw [if_neg hg, lookupPW, lookupPW]
      by_cases hgd : g' = d
      · rw [if_pos hgd, if_pos hgd]
      · rw [if_neg hgd, if_neg hgd, ih]

/-! ### Claims about the watch lifecycle -/

/-- Claim C8: `HasPendingWatchForCRD` is true exactly when the
candidate definition's (group, served-version, kind) tuple equals a
descriptor's tuple that is still pending; it is false once the
matching descriptor has been promoted. -/
theorem hasPendingWatch_spec {σ : Type} (c : HelmManagedComponent σ) (crd : CRD) :
    (HasPendingWatchForCRD c crd = true ↔
      ∃ d : GVK, crdGVK crd = d ∧ lookupPW c.pendingWatches d = some true)
    ∧ (∀ d : GVK, crdGVK crd = d →
      HasPendingWatchForCRD (MarkWatchRegistered c d) crd = false)
    ∧ ((∀ d : GVK, lookupPW c.pendingWatches d = some true → crdGVK crd ≠ d) →
      HasPendingWatchForCRD c crd = false) := by
  refine ⟨?_, ?_, ?_⟩
  · constructor
    · intro ht
      rw [HasPendingWatchForCRD] at ht
      cases h : lookupPW c.pendingWatches (crdGVK crd) with
      | none =>
        rw [h] at ht
        simp at ht
      | some b =>
        cases b
        · rw [h] at ht
          simp at ht
        · exact ⟨crdGVK crd, rfl, h⟩
    · rintro ⟨d, hd, hl⟩
      rw [HasPendingWatchForCRD, hd, hl]
  · intro d hd
    rw [HasPendingWatchForCRD, MarkWatchRegistered]
    rw [← hd]
    rw [lookup_erasePW_self]
  · intro h
    rw [HasPendingWatchForCRD]
    cases hl : lookupPW c.pendingWatches (crdGVK crd) with
    | none => rfl
    | some b =>
      cases b
      · rfl
      · exact absurd rfl (h _ hl)

/-- Witness for C8: in the deferred-watch scenario the matching
definition is detected, an unrelated one is not, and after promotion
the matching definition no longer matches. -/
theorem hasPendingWatch_spec_witness :
    HasPendingWatchForCRD comp0 crd0 = true
    ∧ HasPendingWatchForCRD comp0 crdOther = false
    ∧ HasPendingWatchForCRD (MarkWatchRegistered comp0 (crdGVK crd0)) crd0 = false := by
  refine ⟨?_, ?_, ?_⟩
  · exact (hasPendingWatch_spec comp0 crd0).1.mpr ⟨gvk0, rfl, rfl⟩
  · refine (hasPendingWatch_spec comp0 crdOther).2.2 ?_
    intro d hd
    have hg : gvk0 = d := by
      by_cases h : gvk0 = d
      · exact h
      · rw [comp0, lookupPW] at hd
        simp only [h] at hd
        simp [lookupPW] at hd
    rw [← hg]
    decide
  · exact (hasPendingWatch_spec comp0 crd0).2.1 (crdGVK crd0) rfl

/-- Claim C9: promotion is idempotent and one-directional — both
calls succeed, the descriptor is no longer pending after either call,
the second call changes nothing, and neither promotion operation can
make a non-pending descriptor pending again. -/
theorem promote_idempotent {σ : Type} (c : HelmManagedComponent σ) (crd : CRD) :
    (RegisterPendingWatch c crd).snd = none
    ∧ (RegisterPendingWatch (RegisterPendingWatch c crd).fst crd).snd = none
    ∧ HasPendingWatchForCRD (RegisterPendingWatch c crd).fst crd = false
    ∧ (RegisterPendingWatch (RegisterPendingWatch c crd).fst crd).fst
        = (RegisterPendingWatch c crd).fst
    ∧ (∀ d : GVK, lookupPW c.pendingWatches d ≠ some true →
        lookupPW (RegisterPendingWatch c crd).fst.pendingWatches d ≠ some true)
    ∧ (∀ d g : GVK, lookupPW c.pendingWatches d ≠ some true →
        lookupPW (MarkWatchRegistered c g).pendingWatches d ≠ some true) := by
  have herase : ∀ (d g : GVK), lookupPW c.pendingWatches d ≠ some true →
      lookupPW (MarkWatchRegistered c g).pendingWatches d ≠ some true := by
    intro d g hd
    rw [MarkWatchRegistered]
    by_cases h : d = g
    · subst h
      rw [lookup_erasePW_self]
      simp
    · rw [lookup_erasePW_ne _ _ _ h]
      exact hd
  have hafter : HasPendingWatchForCRD (RegisterPendingWatch c crd).fst crd = false := by
    rw [RegisterPendingWatch]
    cases h : HasPendingWatchForCRD c crd with
    | false => simp [h]
    | true =>
      simp [h]
      rw [HasPendingWatchForCRD, MarkWatchRegistered, lookup_erasePW_self]
  refine ⟨?_, ?_, hafter, ?_, ?_, herase⟩
  · rw [RegisterPendingWatch]
    cases HasPendingWatchForCRD c crd <;> simp
  · rw [RegisterPendingWatch, hafter]
    simp
  · rw [RegisterPendingWatch, hafter]
    simp
  · intro d hd
    rw [RegisterPendingWatch]
    cases h : HasPendingWatchForCRD c crd with
    | false => simp [h]; exact hd
    | true => simp [h]; exact herase d _ hd

/-- Witness for C9: double promotion on the deferred-watch scenario,
with the one-directionality instantiated at an unrelated descriptor
that is not pending. -/
theorem promote_idempotent_witness :
    (RegisterPendingWatch comp0 crd0).snd = none
    ∧ (RegisterPendingWatch (RegisterPendingWatch comp0 crd0).fst crd0).snd = none
    ∧ HasPendingWatchForCRD (RegisterPendingWatch comp0 crd0).fst crd0 = false
    ∧ (RegisterPendingWatch (RegisterPendingWatch comp0 crd0).fst crd0).fst
        = (RegisterPendingWatch comp0 crd0).fst
    ∧ lookupPW (RegisterPendingWatch comp0 crd0).fst.pendingWatches (crdGVK crdOther)
        ≠ some true := by
  have h := promote_idempotent comp0 crd0
  exact ⟨h.1, h.2.1, h.2.2.1, h.2.2.2.1,
    h.2.2.2.2.1 (crdGVK crdOther) (by simp [comp0, lookupPW, crdOther, crdGVK,
      getServedVersion, gvk0])⟩

/-- Witness for C5: the deep-merge recursion applied at the concrete
trees of the spec example, and sibling survival at the nested level. -/
theorem merge_deep_recursion_witness :
    lookupVal (CoalesceTables [("a", Val.vmap [("x", Val.vint 9)])]
        [("a", Val.vmap [("x", Val.vint 1), ("y", Val.vint 2)])]) "a"
      = some (Val.vmap (CoalesceTables [("x", Val.vint 9)]
        [("x", Val.vint 1), ("y", Val.vint 2)]))
    ∧ lookupVal (CoalesceTables [("x", Val.vint 9)]
        [("x", Val.vint 1), ("y", Val.vint 2)]) "y" = some (Val.vint 2) := by
  constructor
  · exact merge_deep_recursion.1 [("a", Val.vmap [("x", Val.vint 9)])]
      [("a", Val.vmap [("x", Val.vint 1), ("y", Val.vint 2)])] "a"
      [("x", Val.vint 9)] [("x", Val.vint 1), ("y", Val.vint 2)]
      (by simp) rfl rfl
  · have := merge_deep_recursion.2.1 [("x", Val.vint 9)]
      [("x", Val.vint 1), ("y", Val.vint 2)] "y" (by simp) rfl
    rw [this]
    rfl

/-! ### Claims about the registry -/

/-- Counterexample to claim C6 as stated: with `langfuse` already
present in the catalog, a second `Register` call under that same name
whose config has an empty chart name returns the `InvalidConfig`
error, not `DuplicateName`, because validation runs before the
duplicate check. -/
theorem register_duplicate_counterexample :
    (GetComponent reg1 "langfuse").isSome = true
    ∧ (Register reg1 okLoader "langfuse" emptyNameCfg).snd =
        some (wrapErr Sentinel.invalidConfig "ChartName cannot be empty")
    ∧ Sentinel.invalidConfig ≠ Sentinel.duplicateComponent := by
  refine ⟨rfl, rfl, ?_⟩
  decide

/-- Claim C6 as amended: with the name already present and a config
that passes validation, a second `Register` returns the
`DuplicateName` error, leaves the catalog exactly as it was (so the
entry still holds the first registration's data), and never consults
the bundle loader. -/
theorem register_duplicate_rejected {σ : Type} (r : HelmManagedComponentRegistry σ)
    (loader loader2 : String → Except String Chart)
    (name : String) (config : ComponentConfig σ)
    (hpresent : (lookupComp r.components name).isSome = true)
    (hvalid : validateComponentConfig config = none) :
    (Register r loader name config).snd =
      some (wrapErr Sentinel.duplicateComponent
        ("component " ++ name ++ " already registered"))
    ∧ (Register r loader name config).fst = r
    ∧ GetComponent (Register r loader name config).fst name = GetComponent r name
    ∧ Register r loader name config = Register r loader2 name config := by
  rw [Register, hvalid, Register, hvalid]
  rw [hpresent]
  exact ⟨rfl, rfl, rfl, rfl⟩

/-- Witness for the amended C6 at the concrete one-component catalog. -/
theorem register_duplicate_rejected_witness :
    (Register reg1 okLoader "langfuse" goodCfg).snd =
      some (wrapErr Sentinel.duplicateComponent
        ("component " ++ "langfuse" ++ " already registered"))
    ∧ (Register reg1 okLoader "langfuse" goodCfg).fst = reg1 := by
  have h := register_duplicate_rejected reg1 okLoader okLoader "langfuse" goodCfg rfl rfl
  exact ⟨h.1, h.2.1⟩

/-- Counterexample to claim C7 as stated: `Register` under the empty
registry-key name with a config that passes validation succeeds and
inserts an entry under the empty name — the name argument itself is
never validated. -/
theorem register_empty_name_counterexample :
    (Register (NewHelmManagedComponentRegistry Unit) okLoader "" goodCfg).snd = none
    ∧ (GetComponent
        (Register (NewHelmManagedComponentRegistry Unit) okLoader "" goodCfg).fst
        "").isSome = true := by
  exact ⟨rfl, rfl⟩

/-- Claim C7 as amended: `Register` fails with the `InvalidConfig`
error whenever the config's chart name is empty or the values
generator is nil, and in that case no entry is inserted; the
registry-key name argument is not validated. -/
theorem register_invalid_config {σ : Type} (r : HelmManagedComponentRegistry σ)
    (loader : String → Except String Chart)
    (name : String) (config : ComponentConfig σ)
    (h : config.chartName = "" ∨ config.valuesGenerator = none) :
    (∃ e, (Register r loader name config).snd = some e
      ∧ e.sentinel = some Sentinel.invalidConfig)
    ∧ (Register r loader name config).fst = r := by
  rcases h with h | h
  · rw [Register, validateComponentConfig, if_pos h]
    exact ⟨⟨wrapErr Sentinel.invalidConfig "ChartName cannot be empty", rfl, rfl⟩, rfl⟩
  · by_cases hn : config.chartName = ""
    · rw [Register, validateComponentConfig, if_pos hn]
      exact ⟨⟨wrapErr Sentinel.invalidConfig "ChartName cannot be empty", rfl, rfl⟩, rfl⟩
    · rw [Register, validateComponentConfig, if_neg hn, if_pos (Option.isNone_iff_eq_none.mpr h)]
      exact ⟨⟨wrapErr Sentinel.invalidConfig "ValuesGenerator cannot be nil", rfl, rfl⟩, rfl⟩

/-- Witness for the amended C7: a nil values generator is rejected
with `InvalidConfig` and the catalog stays empty. -/
theorem register_invalid_config_witness :
    (∃ e, (Register (NewHelmManagedComponentRegistry Unit) okLoader "langfuse"
        { chartName := "langfuse", valuesGenerator := none, watches := [] }).snd = some e
      ∧ e.sentinel = some Sentinel.invalidConfig)
    ∧ (Register (NewHelmManagedComponentRegistry Unit) okLoader "langfuse"
        { chartName := "langfuse", valuesGenerator := none, watches := [] }).fst
      = NewHelmManagedComponentRegistry Unit := by
  exact register_invalid_config (NewHelmManagedComponentRegistry Unit) okLoader "langfuse"
    { chartName := "langfuse", valuesGenerator := none, watches := [] } (Or.inr rfl)

/-! ### Claims about rendering -/

/-- Claim C1: `Render` is deterministic — two calls with the same
name and component configuration on the same (unmodified) registry
are equal, and the result depends only on the resolved registration,
since the whole pipeline is pure in the embedding. -/
theorem render_deterministic {σ : Type} (r r2 : HelmManagedComponentRegistry σ)
    (engineRender : Chart → VMap → Except String (List (String × String)))
    (yamlOk : String → Bool) (name : String) (spec : σ) :
    Render r engineRender yamlOk name spec = Render r engineRender yamlOk name spec
    ∧ (GetComponent r name = GetComponent r2 name →
      Render r engineRender yamlOk name spec = Render r2 engineRender yamlOk name spec) := by
  refine ⟨rfl, ?_⟩
  intro h
  rw [Render, Render, h]

/-- Witness for C1: two renders of `langfuse` agree on the
one-component catalog and on its extension by an unrelated component,
which resolves `langfuse` identically. -/
theorem render_deterministic_witness :
    Render reg1 oneManifestEngine neverYamlOk "langfuse" ()
      = Render reg1 oneManifestEngine neverYamlOk "langfuse" ()
    ∧ Render reg1 oneManifestEngine neverYamlOk "langfuse" ()
      = Render reg2 oneManifestEngine neverYamlOk "langfuse" () := by
  have h := render_deterministic reg1 reg2 oneManifestEngine neverYamlOk "langfuse" ()
  exact ⟨h.1, h.2 rfl⟩

/-- Claim C2, evaluated at the failing input: the template engine
succeeds and the surviving entry fails YAML validation, yet `Render`
returns the error wrapping the `RenderingFailed` sentinel
(`ErrTemplateRendering`), not `InvalidManifest` — `ErrInvalidManifest`
is declared but never produced by the render pipeline. -/
theorem render_invalid_yaml_behavior :
    Render reg1 oneManifestEngine neverYamlOk "langfuse" () =
      Except.error (wrapErr Sentinel.templateRendering
        "invalid YAML in templates/deployment.yaml")
    ∧ (wrapErr Sentinel.templateRendering
        "invalid YAML in templates/deployment.yaml").sentinel
      ≠ some Sentinel.invalidManifest := by
  refine ⟨rfl, ?_⟩
  decide

/-! ### Claim about the bundle loader -/

/-- Claim C10: a present but unparseable `values.rhoai.yaml` does not
fail chart loading or registration — the extraction error is
discarded, the component behaves under `MergeValues` as if the
platform-override tree were absent, and the `BundleLoadFailed` error
can only come from the bundle loader itself. -/
theorem rhoai_parse_error_ignored {σ : Type} (ch : Chart) (f : ChartFile) (e : String)
    (hf : ch.files.find? (fun fl => fl.name = "values.rhoai.yaml") = some f)
    (he : f.parsed = Except.error e) :
    (∀ p : String, LoadChart (fun _ => Except.ok ch) p = Except.ok (ch, none))
    ∧ (∀ (r : HelmManagedComponentRegistry σ) (name : String) (config : ComponentConfig σ),
      validateComponentConfig config = none →
      lookupComp r.components name = none →
      (Register r (fun _ => Except.ok ch) name config).snd = none)
    ∧ (∀ (c : HelmManagedComponent σ) (ch2 : Chart) (cv : VMap),
      c.chart = some ch2 → c.rhoaiValues = none →
      MergeValues c cv = MergeValues { c with rhoaiValues := some [] } cv)
    ∧ (∀ (r : HelmManagedComponentRegistry σ)
        (loader : String → Except String Chart)
        (name : String) (config : ComponentConfig σ) (err : GoError),
      (Register r loader name config).snd = some err →
      err.sentinel = some Sentinel.chartLoadFailed →
      ∃ e2, loader config.chartName = Except.error e2) := by
  have hload : ∀ p : String, LoadChart (fun _ => Except.ok ch) p = Except.ok (ch, none) := by
    intro p
    simp [LoadChart, extractRHOAIValues, hf, he]
  refine ⟨hload, ?_, ?_, ?_⟩
  · intro r name config hv hd
    rcases hgen : config.valuesGenerator with _ | gen
    · rw [validateComponentConfig, hgen] at hv
      by_cases hn : config.chartName = ""
      · rw [if_pos hn] at hv
        exact absurd hv (by simp)
      · rw [if_neg hn] at hv
        exact absurd hv (by simp)
    · rw [Register, hv, hd]
      rw [hgen]
      rw [hload config.chartName]
      rfl
  · intro c ch2 cv hc hr
    rw [mergeValues_eq c ch2 cv hc,
      mergeValues_eq { c with rhoaiValues := some [] } ch2 cv (by simp [hc]), hr]
    rfl
  · intro r loader name config err hsnd hsent
    rw [Register] at hsnd
    rcases hv : validateComponentConfig config with _ | msg
    · rw [hv] at hsnd
      by_cases hdup : (lookupComp r.components name).isSome = true
      · rw [if_pos hdup] at hsnd
        injection hsnd with hsnd
        rw [← hsnd] at hsent
        simp [wrapErr] at hsent
      · rw [Bool.not_eq_true] at hdup
        rw [if_neg (by rw [hdup]; intro hx; exact absurd hx (by simp))] at hsnd
        rcases hgen : config.valuesGenerator with _ | gen
        · rw [hgen] at hsnd
          injection hsnd with hsnd
          rw [← hsnd] at hsent
          simp [wrapErr] at hsent
        · rw [hgen] at hsnd
          rcases hl : LoadChart loader config.chartName with e2 | ok
          · rw [LoadChart] at hl
            rcases hld : loader config.chartName with e3 | ch3
            · exact ⟨e3, rfl⟩
            · rw [hld] at hl
              exact absurd hl (by simp)
          · rw [hl] at hsnd
            exact absurd hsnd (by simp)
    · rw [hv] at hsnd
      injection hsnd with hsnd
      rw [← hsnd] at hsent
      simp [wrapErr] at hsent

/-- Witness for C10 at the concrete chart with the unparseable
override file: loading succeeds with a nil override tree, the
registration succeeds, and the merge coincides with the
override-absent behaviour. -/
theorem rhoai_parse_error_ignored_witness :
    LoadChart (fun _ => Except.ok parseErrorChart) "langfuse"
      = Except.ok (parseErrorChart, none)
    ∧ (Register (NewHelmManagedComponentRegistry Unit)
        (fun _ => Except.ok parseErrorChart) "langfuse" goodCfg).snd = none
    ∧ MergeValues (σ := Unit)
        { chartName := "langfuse", chart := some parseErrorChart,
          valuesGenerator := emptyGen, watches := [],
          rhoaiValues := none, pendingWatches := [] } [("replicas", Val.vint 3)]
      = MergeValues (σ := Unit)
        { chartName := "langfuse", chart := some parseErrorChart,
          valuesGenerator := emptyGen, watches := [],
          rhoaiValues := some [], pendingWatches := [] } [("replicas", Val.vint 3)] := by
  have h := rhoai_parse_error_ignored (σ := Unit) parseErrorChart
    { name := "values.rhoai.yaml", parsed := Except.error "yaml parse error" }
    "yaml parse error" rfl rfl
  refine ⟨h.1 "langfuse", h.2.1 (NewHelmManagedComponentRegistry Unit) "langfuse" goodCfg rfl rfl, ?_⟩
  exact h.2.2.1
    { chartName := "langfuse", chart := some parseErrorChart,
      valuesGenerator := emptyGen, watches := [],
      rhoaiValues := none, pendingWatches := [] }
    parseErrorChart [("replicas", Val.vint 3)] rfl rfl

end helmregistry


